import Mathlib

/-
Verification of flutter_pub_cleaner.py against its specification.

The script is a linear batch tool: it measures directory sizes, detects
projects by a marker file, runs an external clean command per project, and
aggregates totals.  Each Python function is shallowly embedded below; the
effectful boundaries (filesystem, child process, console input) are made
explicit parameters:

  * the filesystem seen by os.walk / os.path is a finite tree `FSTree`
    (mutual with `FSForest`, a list of children) whose nodes carry an
    `accessible` flag modelling whether the OS call on that entry succeeds
    (os.walk with the default onerror swallows unreadable directories, and
    the per-file try/except swallows vanished or unreadable files);
  * a subprocess.run call is summarised by a `RunResult`: a normal exit,
    one of the two exceptions the code catches (CalledProcessError from a
    nonzero status under check=True, FileNotFoundError for a missing
    executable), or any other exception the invocation can raise (such as
    PermissionError for a non-executable binary) - those are not caught by
    clean_flutter_project and propagate, so the function is embedded as
    Except-valued;
  * interactive standard input is a list of lines; reading past the end of
    the list models EOF (Option.none).
-/

mutual

inductive FSTree where
  | file (size : Nat) (accessible : Bool)
  | dir (accessible : Bool) (children : FSForest)

inductive FSForest where
  | nil
  | cons (head : FSTree) (tail : FSForest)

end

mutual

/-- get_folder_size (lines 6-27): os.walk from the root, summing
os.path.getsize over every file reached; an unreadable root or subdirectory
is skipped by the walk (contributing 0), and an unreadable or vanished file
is skipped by the inner try/except.  Walking a non-directory yields
nothing, hence 0. -/
def get_folder_size : FSTree → Nat
  | FSTree.file _ _ => 0
  | FSTree.dir ok cs => if ok then walk_files cs else 0

def walk_files : FSForest → Nat
  | FSForest.nil => 0
  | FSForest.cons t ts => entry_size t + walk_files ts

def entry_size : FSTree → Nat
  | FSTree.file sz ok => if ok then sz else 0
  | FSTree.dir ok cs => if ok then walk_files cs else 0

end

mutual

/-- Modelled from the spec (section 4.1): the exact sum of the sizes of all
regular files under a tree, ignoring accessibility. -/
def total_file_size : FSTree → Nat
  | FSTree.file sz _ => sz
  | FSTree.dir _ cs => forest_file_size cs

def forest_file_size : FSForest → Nat
  | FSForest.nil => 0
  | FSForest.cons t ts => total_file_size t + forest_file_size ts

end

mutual

/-- Every entry of the tree (the root included) is accessible. -/
def all_accessible : FSTree → Bool
  | FSTree.file _ ok => ok
  | FSTree.dir ok cs => ok && forest_accessible cs

def forest_accessible : FSForest → Bool
  | FSForest.nil => true
  | FSForest.cons t ts => all_accessible t && forest_accessible ts

end

/-- Result of the subprocess.run call in clean_flutter_project (check=True):
a normal exit with captured streams, a CalledProcessError raised on a
nonzero status, a FileNotFoundError when the executable is missing, or any
other exception the invocation raises (carrying its message - e.g.
PermissionError when the resolved binary is not executable).  Lines
111-131 of the source catch exactly the middle two. -/
inductive RunResult where
  | ok (stdout stderr : String)
  | calledProcessError (returncode : Int) (stderr : String)
  | fileNotFoundError
  | uncaughtError (exception : String)
deriving DecidableEq

def RunResult.isOk : RunResult → Bool
  | RunResult.ok _ _ => true
  | RunResult.calledProcessError _ _ => false
  | RunResult.fileNotFoundError => false
  | RunResult.uncaughtError _ => false

/-- The two invocation failures the except clauses of lines 111-131
catch. -/
def RunResult.isCaughtFailure : RunResult → Bool
  | RunResult.ok _ _ => false
  | RunResult.calledProcessError _ _ => true
  | RunResult.fileNotFoundError => true
  | RunResult.uncaughtError _ => false

/-- The dict returned by clean_flutter_project.  Sizes are integers:
size_before and size_after are byte counts, size_saved their difference
(possibly negative). -/
structure CleanOutcome where
  success : Bool
  size_before : Int
  size_after : Int
  size_saved : Int
deriving DecidableEq

/-- The command list built from the FVM preference (lines 76-79). -/
def clean_command (use_fvm : Bool) : List String :=
  if use_fvm then ["fvm", "flutter", "clean"] else ["flutter", "clean"]

/-- clean_flutter_project (lines 59-131).  `projectBefore` and
`projectAfter` are the project tree as measured before and after the
external command runs; `run` is what subprocess.run did.  On a normal exit
the function returns success with both measurements and their difference;
the two caught exception paths (CalledProcessError, FileNotFoundError)
return the zeroed failure dict; any other exception raised by the
invocation is not caught and propagates out of the function (Except.error),
aborting the caller's batch loop.  `use_fvm` only selects the command line
that is executed. -/
def clean_flutter_project (projectBefore projectAfter : FSTree) (run : RunResult)
    (use_fvm : Bool) : Except String CleanOutcome :=
  let _command := clean_command use_fvm
  let size_before : Int := get_folder_size projectBefore
  match run with
  | RunResult.ok _ _ =>
      let size_after : Int := get_folder_size projectAfter
      Except.ok ⟨true, size_before, size_after, size_before - size_after⟩
  | RunResult.calledProcessError _ _ => Except.ok ⟨false, 0, 0, 0⟩
  | RunResult.fileNotFoundError => Except.ok ⟨false, 0, 0, 0⟩
  | RunResult.uncaughtError e => Except.error e

deriving instance DecidableEq for Except

/-- The environment one project is cleaned in: its tree before, its tree
after, the subprocess result, and the FVM preference. -/
def CleanWorld : Type := FSTree × FSTree × RunResult × Bool

def cleanOutcomeOf (w : CleanWorld) : Except String CleanOutcome :=
  clean_flutter_project w.1 w.2.1 w.2.2.1 w.2.2.2

/-- The five accumulators of scan_and_clean_flutter_projects
(lines 238-242). -/
structure BatchTotals where
  successful_cleans : Nat
  failed_cleans : Nat
  total_size_before : Int
  total_size_after : Int
  total_size_saved : Int
deriving DecidableEq

def initTotals : BatchTotals := ⟨0, 0, 0, 0, 0⟩

/-- One iteration of the batch loop (lines 245-257): bump the success or
failure counter and add the three size fields to the totals. -/
def addOutcome (t : BatchTotals) (r : CleanOutcome) : BatchTotals :=
  ⟨t.successful_cleans + (if r.success then 1 else 0),
   t.failed_cleans + (if r.success then 0 else 1),
   t.total_size_before + r.size_before,
   t.total_size_after + r.size_after,
   t.total_size_saved + r.size_saved⟩

def processProjects (rs : List CleanOutcome) : BatchTotals :=
  rs.foldl addOutcome initTotals

/-- The invocation of one loop iteration completes - normally or with one
of the two caught failures - rather than raising an uncaught exception. -/
def runCompletes (w : CleanWorld) : Bool :=
  match w.2.2.1 with
  | RunResult.uncaughtError _ => false
  | _ => true

/-- The batch loop (lines 245-257) over the discovered projects.  Each
iteration makes exactly one external-command invocation, counted in the
first component.  A completed outcome is accumulated; an uncaught exception
aborts the loop and propagates to the top-level handler of lines 281-284,
which ends the run without reaching the summary. -/
def run_batch : List CleanWorld → BatchTotals → Nat × Except String BatchTotals
  | [], t => (0, Except.ok t)
  | w :: ws, t =>
      match cleanOutcomeOf w with
      | Except.error e => (1, Except.error e)
      | Except.ok r =>
          let rest := run_batch ws (addOutcome t r)
          (rest.1 + 1, rest.2)

/-
format_size (lines 29-50).  The Python loop works on an IEEE double.  The
conversion float(size_bytes) rounds the integer to a 53-bit significand
(ties to even), modelled below by round53; the rounded value is always an
integer, and every value the loop then reaches is exact in the rational
model, because division by 1024 only decrements the binary exponent.
Python's "%.2f"-style formatting rounds half-to-even, modelled by rnd2.
-/

def size_units : List String := ["B", "KB", "MB", "GB", "TB"]

/-- One execution of `while size >= 1024.0 and unit_index < 4`, unrolled on
the fuel `4 - unit_index`, which is exactly the number of iterations the
index bound still allows. -/
def convert_loop_aux : Nat → Rat → Nat → Rat × Nat
  | 0, size, idx => (size, idx)
  | fuel + 1, size, idx =>
      if 1024 ≤ size then convert_loop_aux fuel (size / 1024) (idx + 1) else (size, idx)

def convert_loop (size : Rat) (idx : Nat) : Rat × Nat :=
  convert_loop_aux (4 - idx) size idx

/-- Floor of a rational, via floor division of numerator by denominator. -/
def ratFloor (x : Rat) : Int := Int.fdiv x.num (x.den : Int)

/-- Round 100·q to the nearest integer, ties to even: the value printed by
Python's two-decimal float formatting, scaled by 100.  (All values formatted
by the program are exact, so rounding the rational and rounding the double
agree.) -/
def rnd2 (q : Rat) : Int :=
  let x := 100 * q
  let f := ratFloor x
  if x - (f : Rat) < 1 / 2 then f
  else if 1 / 2 < x - (f : Rat) then f + 1
  else if f % 2 = 0 then f else f + 1

def pad2 (m : Nat) : String :=
  if m < 10 then "0" ++ toString m else toString m

/-- Render q with exactly two decimal digits, as f"\x7bsize:.2f\x7d" does.
Only ever applied to values in [1, 1025): after the loop the value is at
least 1 (its pre-division value was at least 1024), so the Int.toNat
conversion is lossless. -/
def fmt2 (q : Rat) : String :=
  let c := (rnd2 q).toNat
  toString (c / 100) ++ "." ++ pad2 (c % 100)

/-- Python's int() truncates toward zero; Int.tdiv is truncating
division. -/
def int_trunc (q : Rat) : Int := Int.tdiv q.num (q.den : Int)

/-- Round m to a multiple of the power-of-two granule g: nearest multiple,
ties to the even one. -/
def roundExcess (m g : Nat) : Nat :=
  let q := m / g
  let r := m % g
  if 2 * r < g then q * g
  else if g < 2 * r then (q + 1) * g
  else if q % 2 = 0 then q * g else (q + 1) * g

/-- float(size_bytes): the integer value of the IEEE double nearest to n
(53-bit significand, ties to even).  Exact for |n| < 2^53; for larger
magnitudes the excess low bits are rounded away.  (Doubles overflow above
2^1024, where Python raises OverflowError; the formatter is modelled on the
finite range.) -/
def round53 (n : Int) : Int :=
  if n.natAbs < 2 ^ 53 then n
  else n.sign * (roundExcess n.natAbs (2 ^ (Nat.log2 n.natAbs + 1 - 53)) : Nat)

/-- format_size (lines 29-50): "0 B" for an integer zero; otherwise convert
to a double (round53) and run the loop, rendering either as a plain integer
with unit B (when no division happened) or with two decimals and the
reached unit. -/
def format_size (size_bytes : Int) : String :=
  if size_bytes = 0 then "0 B"
  else
    let p := convert_loop ((round53 size_bytes : Int) : Rat) 0
    if p.2 = 0 then toString (int_trunc p.1) ++ " " ++ size_units.getD 0 ""
    else fmt2 p.1 ++ " " ++ size_units.getD p.2 ""

/-- The closed form of the unit index the loop reaches on an integer input:
the number of divisions by 1024 needed to fall below 1024, capped at 4. -/
def unit_index (n : Int) : Nat :=
  if n < 1024 then 0
  else if n < 1024 ^ 2 then 1
  else if n < 1024 ^ 3 then 2
  else if n < 1024 ^ 4 then 3
  else 4

/-- Python str.strip() with no argument: drop leading and trailing
whitespace.  Defined structurally over the character list so that concrete
instances evaluate inside the kernel; agrees with the library trim on the
ASCII answers the program compares against. -/
def py_strip (s : String) : String :=
  String.mk (((s.data.dropWhile Char.isWhitespace).reverse.dropWhile Char.isWhitespace).reverse)

/-- Python str.lower(), for the ASCII alphabet the program compares
against. -/
def py_lower (s : String) : String :=
  String.mk (s.data.map Char.toLower)

/-- Python name.startswith('.'): the first character is a dot. -/
def starts_with_dot (s : String) : Bool :=
  match s.data with
  | [] => false
  | c :: _ => c = '.'

/-- A child of the scanned parent folder, as discovery sees it: its name,
whether os.path.isdir holds, and the names of the entries directly inside
it (what os.path.join(item, "pubspec.yaml") existence is decided from). -/
structure DirItem where
  name : String
  isDir : Bool
  childNames : List String
deriving DecidableEq

/-- is_flutter_project (lines 52-57): os.path.exists on the joined path,
i.e. membership of "pubspec.yaml" among the directory's direct entries.  A
missing marker just yields false; the function is total. -/
def is_flutter_project (childNames : List String) : Bool :=
  childNames.contains "pubspec.yaml"

/-- The discovery loop (lines 191-213): walk the parent's listing in order,
skip non-directories, skip names starting with '.', keep entries the
detector accepts. -/
def scan_for_projects : List DirItem → List DirItem
  | [] => []
  | item :: rest =>
      if item.isDir = false then scan_for_projects rest
      else if starts_with_dot item.name then scan_for_projects rest
      else if is_flutter_project item.childNames then item :: scan_for_projects rest
      else scan_for_projects rest

/-- ask_fvm_preference (lines 133-153) over the pending input lines: strip
the line; "1" selects FVM, "2" selects plain Flutter, anything else prints
an error and reads the next line.  Exhausting input models EOF (none). -/
def ask_fvm_preference : List String → Option (Bool × List String)
  | [] => none
  | s :: rest =>
      let choice := py_strip s
      if choice = "1" then some (true, rest)
      else if choice = "2" then some (false, rest)
      else ask_fvm_preference rest

/-- The parent-path prompt (lines 166-171): one blocking read; an answer
that strips to empty makes the whole run return (none), it is not asked
again.  A nonempty answer proceeds with the stripped path. -/
def acquire_parent_folder : List String → Option (String × List String)
  | [] => none
  | s :: rest =>
      let p := py_strip s
      if p = "" then none else some (p, rest)

/-- The confirmation test (lines 228-230): strip and lowercase the answer
and ask membership in ['y', 'yes']. -/
def confirm_gate (response : String) : Bool :=
  ["y", "yes"].contains (py_lower (py_strip response))

/-- The confirmation prompt reads exactly one line and never re-prompts:
the gate's verdict on that line decides the run. -/
def confirm_step : List String → Option (Bool × List String)
  | [] => none
  | s :: rest => some (confirm_gate s, rest)

/-- The confirmed tail of scan_and_clean_flutter_projects (lines 228-279):
if the gate rejects the answer the function returns at once - zero external
command invocations, no summary printed; otherwise the batch loop runs.  A
loop that completes prints the summary totals; an uncaught per-project
exception instead reaches the top-level handler, which ends the run with no
summary.  The Nat component counts external command invocations; the
Option is the printed summary. -/
def confirm_and_process (worlds : List CleanWorld) (response : String) :
    Nat × Option BatchTotals :=
  if confirm_gate response then
    match run_batch worlds initTotals with
    | (n, Except.ok t) => (n, some t)
    | (n, Except.error _) => (n, none)
  else (0, none)

/-- The percentage line of the summary (lines 275-277): present only when
the total size before cleaning is positive. -/
def percentage_line (t : BatchTotals) : Option Rat :=
  if 0 < t.total_size_before then
    some ((t.total_size_saved : Rat) / (t.total_size_before : Rat) * 100)
  else none

mutual

theorem entry_size_of_accessible :
    ∀ (t : FSTree), all_accessible t = true → entry_size t = total_file_size t
  | FSTree.file sz ok, h => by
      simp only [all_accessible] at h
      simp [entry_size, total_file_size, h]
  | FSTree.dir ok cs, h => by
      simp only [all_accessible, Bool.and_eq_true] at h
      simp [entry_size, total_file_size, h.1, walk_files_of_accessible cs h.2]

theorem walk_files_of_accessible :
    ∀ (cs : FSForest), forest_accessible cs = true → walk_files cs = forest_file_size cs
  | FSForest.nil, _ => rfl
  | FSForest.cons t ts, h => by
      simp only [forest_accessible, Bool.and_eq_true] at h
      simp [walk_files, forest_file_size,
        entry_size_of_accessible t h.1, walk_files_of_accessible ts h.2]

end

/-- C3: get_folder_size on a directory tree is non-negative; it equals the
exact sum of all regular file sizes when every entry is accessible; an
unreadable root yields 0 (no exception: the function is total); and an
individual inaccessible or vanished file contributes 0 without aborting the
traversal of its siblings. -/
theorem get_folder_size_spec :
    (∀ (ok : Bool) (cs : FSForest), 0 ≤ get_folder_size (FSTree.dir ok cs)) ∧
    (∀ (ok : Bool) (cs : FSForest), all_accessible (FSTree.dir ok cs) = true →
      get_folder_size (FSTree.dir ok cs) = total_file_size (FSTree.dir ok cs)) ∧
    (∀ (cs : FSForest), get_folder_size (FSTree.dir false cs) = 0) ∧
    (∀ (sz : Nat) (rest : FSForest),
      get_folder_size (FSTree.dir true (FSForest.cons (FSTree.file sz false) rest)) =
        get_folder_size (FSTree.dir true rest)) := by
  refine ⟨fun ok cs => Nat.zero_le _, ?_, ?_, ?_⟩
  · intro ok cs h
    simp only [all_accessible, Bool.and_eq_true] at h
    simp [get_folder_size, total_file_size, h.1, walk_files_of_accessible cs h.2]
  · intro cs
    simp [get_folder_size]
  · intro sz rest
    simp [get_folder_size, walk_files, entry_size]

/-- C3 witness: a concrete accessible two-level tree measures exactly the sum
of its file sizes, and the same tree with an unreadable root measures 0. -/
theorem get_folder_size_spec_witness :
    get_folder_size (FSTree.dir true
        (FSForest.cons (FSTree.file 5 true)
          (FSForest.cons (FSTree.dir true (FSForest.cons (FSTree.file 7 true) FSForest.nil))
            FSForest.nil))) =
      total_file_size (FSTree.dir true
        (FSForest.cons (FSTree.file 5 true)
          (FSForest.cons (FSTree.dir true (FSForest.cons (FSTree.file 7 true) FSForest.nil))
            FSForest.nil))) ∧
    get_folder_size (FSTree.dir false
        (FSForest.cons (FSTree.file 5 true) FSForest.nil)) = 0 := by
  constructor
  · exact get_folder_size_spec.2.1 true _ (by decide)
  · exact get_folder_size_spec.2.2.1 _

/-- C1 counterexample: an invocation failure other than the two caught
exception types - e.g. subprocess.run raising PermissionError for a
non-executable binary, which no except clause of lines 111-131 matches -
propagates out of clean_flutter_project instead of being contained in a
zeroed failure outcome, refuting the claim's "no invocation failure
propagates as an exception out of clean_flutter_project". -/
theorem clean_flutter_project_uncaught_counterexample :
    clean_flutter_project (FSTree.dir true FSForest.nil) (FSTree.dir true FSForest.nil)
        (RunResult.uncaughtError "PermissionError") true =
      Except.error "PermissionError" ∧
    (clean_flutter_project (FSTree.dir true FSForest.nil) (FSTree.dir true FSForest.nil)
        (RunResult.uncaughtError "PermissionError") true).toOption = none := by
  constructor
  · rfl
  · rfl

/-- C1 (amended): on a successful external invocation clean_flutter_project
returns success with both measurements and size_saved = size_before -
size_after (which an explicit instance shows can be negative); on the two
caught invocation failures - CalledProcessError and FileNotFoundError - it
returns failure with all three sizes zero; any other invocation exception
is not caught and propagates out of the function, aborting the batch. -/
theorem clean_flutter_project_outcome :
    (∀ (b a : FSTree) (r : RunResult) (m : Bool), r.isOk = true →
      clean_flutter_project b a r m =
        Except.ok ⟨true, (get_folder_size b : Int), (get_folder_size a : Int),
          (get_folder_size b : Int) - (get_folder_size a : Int)⟩) ∧
    (∀ (b a : FSTree) (r : RunResult) (m : Bool), r.isCaughtFailure = true →
      clean_flutter_project b a r m = Except.ok ⟨false, 0, 0, 0⟩) ∧
    (∀ (b a : FSTree) (e : String) (m : Bool),
      clean_flutter_project b a (RunResult.uncaughtError e) m = Except.error e) ∧
    (∃ (b a : FSTree) (m : Bool) (o : CleanOutcome),
      clean_flutter_project b a (RunResult.ok "" "") m = Except.ok o ∧
      o.success = true ∧ o.size_saved < 0) := by
  refine ⟨?_, ?_, ?_, ?_⟩
  · intro b a r m h
    cases r with
    | ok out err => rfl
    | calledProcessError c e => simp [RunResult.isOk] at h
    | fileNotFoundError => simp [RunResult.isOk] at h
    | uncaughtError e => simp [RunResult.isOk] at h
  · intro b a r m h
    cases r with
    | ok out err => simp [RunResult.isCaughtFailure] at h
    | calledProcessError c e => rfl
    | fileNotFoundError => rfl
    | uncaughtError e => simp [RunResult.isCaughtFailure] at h
  · intro b a e m
    rfl
  · exact ⟨FSTree.dir true FSForest.nil,
      FSTree.dir true (FSForest.cons (FSTree.file 5 true) FSForest.nil), true,
      ⟨true, 0, 5, -5⟩, by decide, rfl, by decide⟩

/-- C1 witness: a successful run on a 9-byte project emptied by the clean,
and a missing-executable failure, both contained in outcomes. -/
theorem clean_flutter_project_outcome_witness :
    clean_flutter_project (FSTree.dir true (FSForest.cons (FSTree.file 9 true) FSForest.nil))
        (FSTree.dir true FSForest.nil) (RunResult.ok "" "") true =
      Except.ok ⟨true, 9, 0, 9⟩ ∧
    clean_flutter_project (FSTree.dir true FSForest.nil) (FSTree.dir true FSForest.nil)
        RunResult.fileNotFoundError false = Except.ok ⟨false, 0, 0, 0⟩ := by
  constructor
  · have h := clean_flutter_project_outcome.1
      (FSTree.dir true (FSForest.cons (FSTree.file 9 true) FSForest.nil))
      (FSTree.dir true FSForest.nil) (RunResult.ok "" "") true rfl
    exact h.trans (by decide)
  · exact clean_flutter_project_outcome.2.1 _ _ _ _ rfl

theorem cleanOutcomeOf_ok_saved (w : CleanWorld) (r : CleanOutcome)
    (h : cleanOutcomeOf w = Except.ok r) :
    r.size_saved = r.size_before - r.size_after := by
  obtain ⟨b, a, run, m⟩ := w
  cases run with
  | ok out err =>
      simp only [cleanOutcomeOf, clean_flutter_project, Except.ok.injEq] at h
      subst h
      simp
  | calledProcessError c e =>
      simp only [cleanOutcomeOf, clean_flutter_project, Except.ok.injEq] at h
      subst h
      simp
  | fileNotFoundError =>
      simp only [cleanOutcomeOf, clean_flutter_project, Except.ok.injEq] at h
      subst h
      simp
  | uncaughtError e =>
      simp [cleanOutcomeOf, clean_flutter_project] at h

theorem foldl_addOutcome_saved (rs : List CleanOutcome) (t : BatchTotals)
    (hr : ∀ r ∈ rs, r.size_saved = r.size_before - r.size_after)
    (ht : t.total_size_saved = t.total_size_before - t.total_size_after) :
    (rs.foldl addOutcome t).total_size_saved =
      (rs.foldl addOutcome t).total_size_before -
        (rs.foldl addOutcome t).total_size_after := by
  induction rs generalizing t with
  | nil => simpa using ht
  | cons r rs ih =>
      simp only [List.foldl_cons]
      refine ih (addOutcome t r) (fun x hx => hr x (List.mem_cons_of_mem _ hx)) ?_
      have h1 := hr r (List.mem_cons_self r rs)
      simp only [addOutcome, ht, h1]
      ring

theorem foldl_addOutcome_count (rs : List CleanOutcome) (t : BatchTotals) :
    (rs.foldl addOutcome t).successful_cleans + (rs.foldl addOutcome t).failed_cleans =
      t.successful_cleans + t.failed_cleans + rs.length := by
  induction rs generalizing t with
  | nil => simp
  | cons r rs ih =>
      simp only [List.foldl_cons, List.length_cons]
      rw [ih]
      by_cases h : r.success <;> simp [addOutcome, h] <;> omega

/-- C2: after any number k of iterations of the batch loop over any
sequence of per-project environments, the accumulated totals - a fold of
the outcomes the loop has completed - satisfy total_size_saved =
total_size_before - total_size_after, and successful_cleans + failed_cleans
equals the number of outcomes folded in so far.  (Every accumulator state
the program reaches, also in a run later aborted by an uncaught exception,
is such a fold of completed clean_flutter_project outcomes.) -/
theorem batch_totals_invariant (ws : List CleanWorld) (k : Nat) :
    (processProjects ((ws.filterMap (fun w => (cleanOutcomeOf w).toOption)).take
        k)).total_size_saved =
      (processProjects ((ws.filterMap (fun w => (cleanOutcomeOf w).toOption)).take
          k)).total_size_before -
        (processProjects ((ws.filterMap (fun w => (cleanOutcomeOf w).toOption)).take
            k)).total_size_after ∧
    (processProjects ((ws.filterMap (fun w => (cleanOutcomeOf w).toOption)).take
        k)).successful_cleans +
        (processProjects ((ws.filterMap (fun w => (cleanOutcomeOf w).toOption)).take
            k)).failed_cleans =
      ((ws.filterMap (fun w => (cleanOutcomeOf w).toOption)).take k).length := by
  constructor
  · refine foldl_addOutcome_saved _ _ ?_ (by norm_num [initTotals])
    intro r hr
    have hmem : r ∈ ws.filterMap (fun w => (cleanOutcomeOf w).toOption) :=
      List.take_subset _ _ hr
    obtain ⟨w, hw, hsome⟩ := List.mem_filterMap.mp hmem
    have hok : cleanOutcomeOf w = Except.ok r := by
      cases hc : cleanOutcomeOf w with
      | ok x =>
          rw [hc] at hsome
          simp only [Except.toOption, Option.some.injEq] at hsome
          rw [hsome]
      | error e =>
          rw [hc] at hsome
          simp [Except.toOption] at hsome
    exact cleanOutcomeOf_ok_saved w r hok
  · have h := foldl_addOutcome_count
      ((ws.filterMap (fun w => (cleanOutcomeOf w).toOption)).take k) initTotals
    simpa [processProjects, initTotals] using h

/-- The conversion loop fully unrolled: it runs for at most four divisions
starting from index 0. -/
theorem convert_loop_unfold (q : Rat) : convert_loop q 0 =
    if 1024 ≤ q then
      (if 1024 ≤ q / 1024 then
        (if 1024 ≤ q / 1024 / 1024 then
          (if 1024 ≤ q / 1024 / 1024 / 1024 then (q / 1024 / 1024 / 1024 / 1024, 4)
           else (q / 1024 / 1024 / 1024, 3))
         else (q / 1024 / 1024, 2))
       else (q / 1024, 1))
    else (q, 0) := rfl

theorem ratFloor_intCast (m : Int) : ratFloor ((m : Rat)) = m := by
  simp [ratFloor, Int.fdiv_one]

theorem rnd2_of_mul_eq (q : Rat) (m : Int) (h : 100 * q = (m : Rat)) : rnd2 q = m := by
  have h0 : (m : Rat) - ((m : Int) : Rat) < 1 / 2 := by norm_num
  simp [rnd2, h, ratFloor_intCast, h0]

theorem fmt2_of_mul_eq (q : Rat) (m : Nat) (h : 100 * q = (m : Rat)) :
    fmt2 q = toString (m / 100) ++ "." ++ pad2 (m % 100) := by
  have hm : rnd2 q = (m : Int) := rnd2_of_mul_eq q m (by exact_mod_cast h)
  simp [fmt2, hm]

/-- The loop on an integer input stops exactly at the capped base-1024
magnitude of the input, having divided once per unit step. -/
theorem convert_loop_closed (n : Int) :
    convert_loop ((n : Rat)) 0 = ((n : Rat) / 1024 ^ unit_index n, unit_index n) := by
  have p1 : (0 : Rat) < 1024 := by norm_num
  have p2 : (0 : Rat) < 1048576 := by norm_num
  have p3 : (0 : Rat) < 1073741824 := by norm_num
  have e2 : (n : Rat) / 1024 / 1024 = (n : Rat) / 1048576 := by
    rw [div_div]; norm_num
  have e3 : (n : Rat) / 1024 / 1024 / 1024 = (n : Rat) / 1073741824 := by
    rw [div_div, div_div]; norm_num
  have e4 : (n : Rat) / 1024 / 1024 / 1024 / 1024 = (n : Rat) / 1099511627776 := by
    rw [div_div, div_div, div_div]; norm_num
  unfold unit_index
  split_ifs with h1 h2 h3 h4
  · have c1 : ¬ (1024 ≤ (n : Rat)) := by
      rw [not_le]
      exact_mod_cast h1
    rw [convert_loop_unfold, if_neg c1]
    norm_num
  · have c1 : (1024 : Rat) ≤ (n : Rat) := by
      exact_mod_cast not_lt.mp h1
    have h2z : n < 1048576 := by norm_num at h2; omega
    have h2q : (n : Rat) < 1048576 := by exact_mod_cast h2z
    have c2 : ¬ (1024 ≤ (n : Rat) / 1024) := by
      rw [not_le, div_lt_iff₀ p1]
      norm_num
      linarith [h2q]
    rw [convert_loop_unfold, if_pos c1, if_neg c2]
    norm_num
  · have c1 : (1024 : Rat) ≤ (n : Rat) := by
      exact_mod_cast not_lt.mp h1
    have h2z : 1048576 ≤ n := by norm_num at h2; omega
    have h2q : (1048576 : Rat) ≤ (n : Rat) := by exact_mod_cast h2z
    have h3z : n < 1073741824 := by norm_num at h3; omega
    have h3q : (n : Rat) < 1073741824 := by exact_mod_cast h3z
    have c2 : (1024 : Rat) ≤ (n : Rat) / 1024 := by
      rw [le_div_iff₀ p1]
      norm_num
      linarith [h2q]
    have c3 : ¬ (1024 ≤ (n : Rat) / 1024 / 1024) := by
      rw [e2, not_le, div_lt_iff₀ p2]
      norm_num
      linarith [h3q]
    rw [convert_loop_unfold, if_pos c1, if_pos c2, if_neg c3]
    rw [e2]
    norm_num
  · have c1 : (1024 : Rat) ≤ (n : Rat) := by
      exact_mod_cast not_lt.mp h1
    have h3z : 1073741824 ≤ n := by norm_num at h3; omega
    have h3q : (1073741824 : Rat) ≤ (n : Rat) := by exact_mod_cast h3z
    have h4z : n < 1099511627776 := by norm_num at h4; omega
    have h4q : (n : Rat) < 1099511627776 := by exact_mod_cast h4z
    have c2 : (1024 : Rat) ≤ (n : Rat) / 1024 := by
      rw [le_div_iff₀ p1]
      norm_num
      linarith [h3q]
    have c3 : (1024 : Rat) ≤ (n : Rat) / 1024 / 1024 := by
      rw [e2, le_div_iff₀ p2]
      norm_num
      linarith [h3q]
    have c4 : ¬ (1024 ≤ (n : Rat) / 1024 / 1024 / 1024) := by
      rw [e3, not_le, div_lt_iff₀ p3]
      norm_num
      linarith [h4q]
    rw [convert_loop_unfold, if_pos c1, if_pos c2, if_pos c3, if_neg c4]
    rw [e3]
    norm_num
  · have h4z : 1099511627776 ≤ n := by norm_num at h4; omega
    have h4q : (1099511627776 : Rat) ≤ (n : Rat) := by exact_mod_cast h4z
    have c1 : (1024 : Rat) ≤ (n : Rat) := by linarith [h4q]
    have c2 : (1024 : Rat) ≤ (n : Rat) / 1024 := by
      rw [le_div_iff₀ p1]
      norm_num
      linarith [h4q]
    have c3 : (1024 : Rat) ≤ (n : Rat) / 1024 / 1024 := by
      rw [e2, le_div_iff₀ p2]
      norm_num
      linarith [h4q]
    have c4 : (1024 : Rat) ≤ (n : Rat) / 1024 / 1024 / 1024 := by
      rw [e3, le_div_iff₀ p3]
      norm_num
      linarith [h4q]
    rw [convert_loop_unfold, if_pos c1, if_pos c2, if_pos c3, if_pos c4]
    rw [e4]
    norm_num

theorem unit_index_le_four (n : Int) : unit_index n ≤ 4 := by
  unfold unit_index
  split_ifs <;> omega

theorem unit_index_eq_zero (n : Int) (h : n < 1024) : unit_index n = 0 := by
  unfold unit_index
  rw [if_pos h]

theorem unit_index_eq_four (n : Int) (h : 1024 ^ 4 ≤ n) : unit_index n = 4 := by
  unfold unit_index
  split_ifs with h1 h2 h3 h4 <;> [omega; omega; omega; omega; rfl]

theorem unit_index_pos (n : Int) (h : 1024 ≤ n) : 1 ≤ unit_index n := by
  unfold unit_index
  split_ifs <;> omega

theorem round53_eq_self (n : Int) (h : n.natAbs < 2 ^ 53) : round53 n = n := by
  unfold round53
  rw [if_pos h]

theorem round53_nonpos (n : Int) (h : n ≤ 0) : round53 n ≤ 0 := by
  unfold round53
  split_ifs with h1
  · exact h
  · have hn : n < 0 := by omega
    rw [Int.sign_eq_neg_one_of_neg hn]
    have hx : (0 : Int) ≤
        ((roundExcess n.natAbs (2 ^ (Nat.log2 n.natAbs + 1 - 53)) : Nat) : Int) :=
      Int.natCast_nonneg _
    nlinarith [hx]

theorem roundExcess_ge (m g : Nat) : m / g * g ≤ roundExcess m g := by
  dsimp only [roundExcess]
  split_ifs
  · exact Nat.le_refl _
  · exact Nat.mul_le_mul_right g (Nat.le_succ _)
  · exact Nat.le_refl _
  · exact Nat.mul_le_mul_right g (Nat.le_succ _)

theorem round53_big (n : Int) (h : 2 ^ 53 ≤ n) : 2 ^ 52 ≤ round53 n := by
  have hnat : 2 ^ 53 ≤ n.natAbs := by omega
  have hne : ¬ (n.natAbs < 2 ^ 53) := by omega
  have hpos : 0 < n := by omega
  have hm0 : n.natAbs ≠ 0 := by omega
  unfold round53
  rw [if_neg hne, Int.sign_eq_one_of_pos hpos, one_mul]
  have hlog : 53 ≤ Nat.log2 n.natAbs := by
    by_contra hcon
    push_neg at hcon
    have hlt : n.natAbs < 2 ^ (Nat.log2 n.natAbs + 1) := Nat.lt_log2_self
    have hle : (2 : Nat) ^ (Nat.log2 n.natAbs + 1) ≤ 2 ^ 53 :=
      Nat.pow_le_pow_right (by norm_num) (by omega)
    omega
  have hpow : (2 : Nat) ^ 52 * 2 ^ (Nat.log2 n.natAbs + 1 - 53) = 2 ^ Nat.log2 n.natAbs := by
    rw [← pow_add]
    congr 1
    omega
  have hself : (2 : Nat) ^ Nat.log2 n.natAbs ≤ n.natAbs := Nat.log2_self_le hm0
  have hdiv : (2 : Nat) ^ 52 ≤ n.natAbs / 2 ^ (Nat.log2 n.natAbs + 1 - 53) := by
    rw [Nat.le_div_iff_mul_le (by positivity)]
    omega
  have hkey : (2 : Nat) ^ 52 ≤
      n.natAbs / 2 ^ (Nat.log2 n.natAbs + 1 - 53) * 2 ^ (Nat.log2 n.natAbs + 1 - 53) := by
    calc (2 : Nat) ^ 52 = 2 ^ 52 * 1 := by ring
    _ ≤ n.natAbs / 2 ^ (Nat.log2 n.natAbs + 1 - 53) * 2 ^ (Nat.log2 n.natAbs + 1 - 53) :=
        Nat.mul_le_mul hdiv (Nat.one_le_two_pow)
  have hre := roundExcess_ge n.natAbs (2 ^ (Nat.log2 n.natAbs + 1 - 53))
  omega

/-- float conversion never moves an integer across the unit thresholds: the
loop reaches the same unit for the rounded value as the closed-form index
of the original integer assigns. -/
theorem unit_index_round53 (n : Int) : unit_index (round53 n) = unit_index n := by
  by_cases h : n.natAbs < 2 ^ 53
  · rw [round53_eq_self n h]
  · by_cases hp : 0 ≤ n
    · have hn : 2 ^ 53 ≤ n := by omega
      have h1 : (1024 : Int) ^ 4 ≤ n := by omega
      have h2 : (1024 : Int) ^ 4 ≤ round53 n := by
        have := round53_big n hn
        omega
      rw [unit_index_eq_four _ h2, unit_index_eq_four _ h1]
    · push_neg at hp
      have h1 : n < 1024 := by omega
      have h2 : round53 n < 1024 := by
        have := round53_nonpos n (le_of_lt hp)
        omega
      rw [unit_index_eq_zero _ h2, unit_index_eq_zero _ h1]

/-- Whenever the float value stays below 1024 (an integer zero and every
negative input included) the loop is skipped and the rounded integer
renders with unit B. -/
theorem format_size_bytes (n : Int) (h : round53 n < 1024) :
    format_size n = toString (round53 n) ++ " B" := by
  by_cases hz : n = 0
  · subst hz
    decide
  · have hu : unit_index (round53 n) = 0 := unit_index_eq_zero _ h
    have hc := convert_loop_closed (round53 n)
    rw [hu] at hc
    have hv : ((round53 n : Int) : Rat) / 1024 ^ (0 : Nat) = ((round53 n : Int) : Rat) := by
      norm_num
    rw [hv] at hc
    have ht : int_trunc (((round53 n : Int) : Rat)) = round53 n := by
      simp [int_trunc, Int.tdiv_one]
    simp only [format_size, hc, if_neg hz]
    simp only [ht]
    rw [String.append_assoc, if_pos trivial]
    rfl

/-- Below the rounding threshold 2^53 the float is exact and a sub-1024
input renders as the plain integer. -/
theorem format_size_bytes_exact (n : Int) (hs : n.natAbs < 2 ^ 53) (h : n < 1024) :
    format_size n = toString n ++ " B" := by
  have hr := round53_eq_self n hs
  rw [format_size_bytes n (by rw [hr]; exact h), hr]

/-- Inputs of at least 1024 render through fmt2: two decimal digits and the
unit the loop stopped at. -/
theorem format_size_two_decimals (n : Int) (h : 1024 ≤ n) :
    ∃ a b : Nat, b < 100 ∧
      format_size n = toString a ++ "." ++ pad2 b ++ " " ++ size_units.getD (unit_index n) "" ∧
      1 ≤ unit_index n ∧ unit_index n ≤ 4 := by
  have hz : ¬ (n = 0) := by omega
  have hu1 : 1 ≤ unit_index n := unit_index_pos n h
  have hu4 : unit_index n ≤ 4 := unit_index_le_four n
  have hui := unit_index_round53 n
  have hc := convert_loop_closed (round53 n)
  rw [hui] at hc
  refine ⟨(rnd2 (((round53 n : Int) : Rat) / 1024 ^ unit_index n)).toNat / 100,
          (rnd2 (((round53 n : Int) : Rat) / 1024 ^ unit_index n)).toNat % 100,
          Nat.mod_lt _ (by norm_num), ?_, hu1, hu4⟩
  have hun : ¬ (unit_index n = 0) := by omega
  simp only [format_size, hc, if_neg hz, if_neg hun]
  rfl

/-- Evaluation scheme for a concrete float-exact input that reaches a non-B
unit. -/
theorem format_size_eval (n : Int) (u : Nat) (q : Rat) (m : Nat)
    (hz : ¬ (n = 0)) (hr : round53 n = n) (hu : unit_index n = u) (hun : ¬ (u = 0))
    (hq : ((n : Rat)) / 1024 ^ u = q) (hm : 100 * q = (m : Rat)) :
    format_size n = toString (m / 100) ++ "." ++ pad2 (m % 100) ++ " " ++
      size_units.getD u "" := by
  have hc := convert_loop_closed n
  rw [hu, hq] at hc
  simp only [format_size, hr, hc, if_neg hz, if_neg hun]
  rw [fmt2_of_mul_eq q m hm]

/-- C4: format_size maps a non-negative byte count to "<value> <unit>" with
unit drawn from size_units, dividing by 1024 once per unit step (the loop
stops exactly at the capped base-1024 magnitude, so any input of at least
1024^4 renders in TB, however large); values that stay in bytes render as a
plain integer, all other units with exactly two decimal digits; and the
five pinned values evaluate as the specification lists them. -/
theorem format_size_spec :
    format_size 0 = "0 B" ∧
    format_size 1023 = "1023 B" ∧
    format_size 1024 = "1.00 KB" ∧
    format_size 1536 = "1.50 KB" ∧
    format_size (1024 ^ 4) = "1.00 TB" ∧
    (∀ n : Int, convert_loop ((n : Rat)) 0 = ((n : Rat) / 1024 ^ unit_index n, unit_index n)) ∧
    (∀ n : Int, 0 ≤ n → n < 1024 → format_size n = toString n ++ " B") ∧
    (∀ n : Int, 1024 ≤ n → ∃ a b : Nat, b < 100 ∧
      format_size n = toString a ++ "." ++ pad2 b ++ " " ++ size_units.getD (unit_index n) "" ∧
      1 ≤ unit_index n ∧ unit_index n ≤ 4) ∧
    (∀ n : Int, 1024 ^ 4 ≤ n →
      unit_index n = 4 ∧ size_units.getD (unit_index n) "" = "TB") := by
  refine ⟨by decide, ?_, ?_, ?_, ?_, convert_loop_closed, ?_, ?_, ?_⟩
  · rw [format_size_bytes_exact 1023 (by decide) (by norm_num)]
    decide
  · rw [format_size_eval 1024 1 1 100 (by norm_num) (by decide) (by decide) (by norm_num)
      (by norm_num) (by norm_num)]
    decide
  · rw [format_size_eval 1536 1 (3 / 2) 150 (by norm_num) (by decide) (by decide) (by norm_num)
      (by norm_num) (by norm_num)]
    decide
  · rw [format_size_eval (1024 ^ 4) 4 1 100 (by norm_num) (by decide) (by decide) (by norm_num)
      (by push_cast; norm_num) (by norm_num)]
    decide
  · intro n h0 h
    exact format_size_bytes_exact n (by omega) h
  · intro n h
    exact format_size_two_decimals n h
  · intro n h
    have hu : unit_index n = 4 := unit_index_eq_four n h
    exact ⟨hu, by rw [hu]; decide⟩

/-- C4 witness: the byte branch at 512, the two-decimal branch at 2048, and
the TB cap at 1024^5, each obtained from format_size_spec. -/
theorem format_size_spec_witness :
    format_size 512 = toString (512 : Int) ++ " B" ∧
    (∃ a b : Nat, b < 100 ∧
      format_size 2048 = toString a ++ "." ++ pad2 b ++ " " ++
        size_units.getD (unit_index 2048) "" ∧
      1 ≤ unit_index 2048 ∧ unit_index 2048 ≤ 4) ∧
    (unit_index (1024 ^ 5) = 4 ∧ size_units.getD (unit_index (1024 ^ 5)) "" = "TB") :=
  ⟨format_size_spec.2.2.2.2.2.2.1 512 (by decide) (by decide),
   format_size_spec.2.2.2.2.2.2.2.1 2048 (by decide),
   format_size_spec.2.2.2.2.2.2.2.2 (1024 ^ 5) (by decide)⟩

/-- C10 counterexample: Python evaluates float(size_bytes) before the loop,
and the double rounds away low bits from magnitude 2^53 on: at
n = -(2^53) - 1 the program prints the rounded value
"-9007199254740992 B" (verified against CPython), not
"<n> B" = "-9007199254740993 B" - refuting the claim's exact rendering for
every negative integer. -/
theorem format_size_rounding_counterexample :
    format_size (-9007199254740993) = "-9007199254740992 B" ∧
    format_size (-9007199254740993) ≠ toString (-9007199254740993 : Int) ++ " B" := by
  have hlog : Nat.log2 9007199254740993 = 53 := by
    rw [Nat.log2_eq_log_two]
    exact Nat.log_eq_of_pow_le_of_lt_pow (by norm_num) (by norm_num)
  have habs : (-9007199254740993 : Int).natAbs = 9007199254740993 := by decide
  have hr : round53 (-9007199254740993) = -9007199254740992 := by
    unfold round53
    rw [habs, hlog]
    decide
  have hlt : round53 (-9007199254740993) < 1024 := by
    rw [hr]
    decide
  constructor
  · rw [format_size_bytes _ hlt, hr]
    decide
  · rw [format_size_bytes _ hlt, hr]
    decide

/-- C10 (amended): format_size is total on every integer in the double
range; for a negative input the conversion loop never runs (the float value
stays below 1024), the unit is B and the rendering is the integral value of
float(n) - exactly "<n> B" whenever -2^53 < n < 0, which covers every
size_saved an actual measurement can produce; no negative input ever
renders fractionally or with a non-B unit. -/
theorem format_size_negative (n : Int) (h : n < 0) :
    convert_loop (((round53 n : Int) : Rat)) 0 = (((round53 n : Int) : Rat), 0) ∧
    format_size n = toString (round53 n) ++ " B" ∧
    (-(2 ^ 53) < n → format_size n = toString n ++ " B") := by
  have hle : round53 n ≤ 0 := round53_nonpos n (le_of_lt h)
  have h1024 : round53 n < 1024 := by omega
  refine ⟨?_, format_size_bytes n h1024, ?_⟩
  · have hc := convert_loop_closed (round53 n)
    rw [unit_index_eq_zero _ h1024] at hc
    simpa using hc
  · intro hb
    exact format_size_bytes_exact n (by omega) (by omega)

/-- C10 witness: the negative saving -5 lies in the float-exact range and
renders as "-5 B". -/
theorem format_size_negative_witness :
    format_size (-5) = toString (round53 (-5)) ++ " B" ∧
    format_size (-5) = toString (-5 : Int) ++ " B" :=
  ⟨(format_size_negative (-5) (by decide)).2.1,
   (format_size_negative (-5) (by decide)).2.2 (by decide)⟩

/-- The discovery loop is the in-order filter by: is a directory, not
hidden, and detected as a project. -/
theorem scan_for_projects_eq_filter (items : List DirItem) :
    scan_for_projects items =
      items.filter (fun it =>
        it.isDir && !(starts_with_dot it.name) && is_flutter_project it.childNames) := by
  induction items with
  | nil => rfl
  | cons it rest ih =>
      by_cases h1 : it.isDir
      · by_cases h2 : starts_with_dot it.name
        · simp [scan_for_projects, List.filter_cons, h1, h2, ih]
        · by_cases h3 : is_flutter_project it.childNames
          · simp [scan_for_projects, List.filter_cons, h1, h2, h3, ih]
          · simp [scan_for_projects, List.filter_cons, h1, h2, h3, ih]
      · simp [scan_for_projects, List.filter_cons, h1, ih]

/-- C5: discovery looks only at the given immediate children, keeps exactly
those that are directories, not dot-prefixed, and accepted by the project
detector, preserves the encounter order (its result is a sublist of the
listing), and on the specification's four-child example yields exactly the
marked visible directory A. -/
theorem scan_for_projects_spec :
    (∀ (items : List DirItem) (it : DirItem),
        it ∈ scan_for_projects items ↔
          it ∈ items ∧ it.isDir = true ∧ starts_with_dot it.name = false ∧
            is_flutter_project it.childNames = true) ∧
    (∀ items : List DirItem, (scan_for_projects items).Sublist items) ∧
    scan_for_projects
        [⟨"A", true, ["pubspec.yaml"]⟩, ⟨"B", true, ["lib", "src"]⟩,
         ⟨".hidden", true, ["pubspec.yaml"]⟩, ⟨"C", false, []⟩] =
      [⟨"A", true, ["pubspec.yaml"]⟩] := by
  refine ⟨?_, ?_, ?_⟩
  · intro items it
    rw [scan_for_projects_eq_filter, List.mem_filter]
    simp [Bool.and_eq_true, Bool.not_eq_true', and_assoc]
  · intro items
    rw [scan_for_projects_eq_filter]
    exact List.filter_sublist items
  · decide

/-- C6: the project detector holds exactly when the marker name
pubspec.yaml occurs among the directory's immediate entries, so it depends
on nothing else in the directory; it is a total Boolean function. -/
theorem is_flutter_project_spec :
    (∀ childNames : List String,
        is_flutter_project childNames = true ↔ "pubspec.yaml" ∈ childNames) ∧
    (∀ d1 d2 : List String, ("pubspec.yaml" ∈ d1 ↔ "pubspec.yaml" ∈ d2) →
        is_flutter_project d1 = is_flutter_project d2) := by
  have hmem : ∀ l : List String, is_flutter_project l = true ↔ "pubspec.yaml" ∈ l := by
    intro l
    simp [is_flutter_project]
  refine ⟨hmem, ?_⟩
  intro d1 d2 h
  cases hb1 : is_flutter_project d1 with
  | true =>
      have := (hmem d2).mpr (h.mp ((hmem d1).mp hb1))
      rw [this]
  | false =>
      cases hb2 : is_flutter_project d2 with
      | true =>
          have := (hmem d1).mpr (h.mpr ((hmem d2).mp hb2))
          rw [hb1] at this
          exact absurd this (by simp)
      | false => rfl

/-- C6 witness: two directories agreeing on the marker get the same
verdict. -/
theorem is_flutter_project_spec_witness :
    is_flutter_project ["pubspec.yaml"] =
      is_flutter_project ["lib", "pubspec.yaml", "test"] :=
  is_flutter_project_spec.2 ["pubspec.yaml"] ["lib", "pubspec.yaml", "test"] (by decide)

theorem runCompletes_iff (w : CleanWorld) :
    runCompletes w = true ↔ ∃ r, cleanOutcomeOf w = Except.ok r := by
  obtain ⟨b, a, run, m⟩ := w
  cases run <;> simp [runCompletes, cleanOutcomeOf, clean_flutter_project]

theorem run_batch_completes (ws : List CleanWorld) (t : BatchTotals)
    (h : ws.all runCompletes = true) :
    run_batch ws t =
      (ws.length,
       Except.ok ((ws.filterMap (fun w => (cleanOutcomeOf w).toOption)).foldl addOutcome t)) := by
  induction ws generalizing t with
  | nil => rfl
  | cons w rest ih =>
      rw [List.all_cons, Bool.and_eq_true] at h
      obtain ⟨r, hr⟩ := (runCompletes_iff w).mp h.1
      simp only [run_batch, hr]
      rw [ih (addOutcome t r) h.2]
      simp [List.filterMap_cons, hr, Except.toOption]

theorem run_batch_aborts (ws : List CleanWorld) (t : BatchTotals)
    (h : ws.all runCompletes = false) :
    ∃ e, run_batch ws t = ((ws.takeWhile runCompletes).length + 1, Except.error e) := by
  induction ws generalizing t with
  | nil => simp at h
  | cons w rest ih =>
      by_cases hw : runCompletes w = true
      · obtain ⟨r, hr⟩ := (runCompletes_iff w).mp hw
        have hrest : rest.all runCompletes = false := by
          rw [List.all_cons, hw] at h
          simpa using h
        obtain ⟨e, he⟩ := ih (addOutcome t r) hrest
        refine ⟨e, ?_⟩
        simp only [run_batch, hr, he]
        simp [List.takeWhile_cons, hw]
      · have hne : ∃ e, cleanOutcomeOf w = Except.error e := by
          cases hc : cleanOutcomeOf w with
          | ok r => exact absurd ((runCompletes_iff w).mpr ⟨r, hc⟩) hw
          | error e => exact ⟨e, rfl⟩
        obtain ⟨e, he⟩ := hne
        refine ⟨e, ?_⟩
        simp only [run_batch, he]
        simp [List.takeWhile_cons, hw]

/-- C7 counterexample: with an affirmative answer but a first project whose
invocation raises an uncaught PermissionError, the batch makes one
invocation and aborts with no summary over a two-project discovery - not
the processing of every discovered project the claim asserts. -/
theorem confirm_and_process_abort_counterexample :
    confirm_and_process
        [(FSTree.dir true FSForest.nil, FSTree.dir true FSForest.nil,
          RunResult.uncaughtError "PermissionError", true),
         (FSTree.dir true FSForest.nil, FSTree.dir true FSForest.nil,
          RunResult.ok "" "", true)] "y" = (1, none) ∧
    ([(FSTree.dir true FSForest.nil, FSTree.dir true FSForest.nil,
       RunResult.uncaughtError "PermissionError", true),
      (FSTree.dir true FSForest.nil, FSTree.dir true FSForest.nil,
       RunResult.ok "" "", true)] : List CleanWorld).length = 2 := by
  constructor
  · decide
  · rfl

/-- C7 (amended): the confirmation gate accepts exactly the answers whose
stripped, lowercased form is "y" or "yes" (so the comparison is
case-insensitive).  Any rejected answer - the empty answer included -
cancels the run: zero external command invocations and no summary.  An
accepted answer runs the batch: when every per-project invocation completes
(normally or with one of the two caught failures) every discovered project
is processed - one invocation each - and the summary totals are produced;
an uncaught invocation exception aborts the batch after the invocations
made so far and no summary is printed. -/
theorem confirmation_gate_spec :
    (∀ (response : String) (worlds : List CleanWorld),
        confirm_gate response = false → confirm_and_process worlds response = (0, none)) ∧
    (∀ response : String, confirm_gate response = true ↔
        (py_lower (py_strip response) = "y" ∨ py_lower (py_strip response) = "yes")) ∧
    confirm_gate "" = false ∧
    (∀ (response : String) (worlds : List CleanWorld),
        confirm_gate response = true → worlds.all runCompletes = true →
          confirm_and_process worlds response =
            (worlds.length,
             some (processProjects (worlds.filterMap (fun w => (cleanOutcomeOf w).toOption))))) ∧
    (∀ (response : String) (worlds : List CleanWorld),
        confirm_gate response = true → worlds.all runCompletes = false →
          confirm_and_process worlds response =
            ((worlds.takeWhile runCompletes).length + 1, none)) := by
  refine ⟨?_, ?_, ?_, ?_, ?_⟩
  · intro r ws h
    simp [confirm_and_process, h]
  · intro r
    simp [confirm_gate]
  · decide
  · intro r ws h hall
    simp only [confirm_and_process, if_pos h, run_batch_completes ws initTotals hall]
    rfl
  · intro r ws h hall
    obtain ⟨e, he⟩ := run_batch_aborts ws initTotals hall
    simp only [confirm_and_process, if_pos h, he]

/-- C7 witness: empty and "n" answers cancel; " Y " over one completing
project processes it and yields the summary; "yes" over one
uncaught-failure project aborts after its single invocation with no
summary. -/
theorem confirmation_gate_spec_witness :
    confirm_and_process [] "" = (0, none) ∧
    confirm_and_process [] "n" = (0, none) ∧
    confirm_and_process
        [(FSTree.dir true (FSForest.cons (FSTree.file 9 true) FSForest.nil),
          FSTree.dir true FSForest.nil, RunResult.ok "" "", true)] " Y " =
      (1, some (processProjects [⟨true, 9, 0, 9⟩])) ∧
    confirm_and_process
        [(FSTree.dir true FSForest.nil, FSTree.dir true FSForest.nil,
          RunResult.uncaughtError "OSError", false)] "yes" = (1, none) := by
  refine ⟨confirmation_gate_spec.1 "" [] (by decide),
          confirmation_gate_spec.1 "n" [] (by decide), ?_, ?_⟩
  · have h := confirmation_gate_spec.2.2.2.1 " Y "
      [(FSTree.dir true (FSForest.cons (FSTree.file 9 true) FSForest.nil),
        FSTree.dir true FSForest.nil, RunResult.ok "" "", true)] (by decide) (by decide)
    rw [h]
    decide
  · have h := confirmation_gate_spec.2.2.2.2 "yes"
      [(FSTree.dir true FSForest.nil, FSTree.dir true FSForest.nil,
        RunResult.uncaughtError "OSError", false)] (by decide) (by decide)
    rw [h]
    decide

/-- C8: the percentage line is 100·saved/before and appears exactly when
the total before-size is positive; when it is zero the line is omitted, so
the quotient is never formed with a zero divisor. -/
theorem percentage_line_spec (t : BatchTotals) :
    (0 < t.total_size_before →
      percentage_line t =
        some (100 * (t.total_size_saved : Rat) / (t.total_size_before : Rat))) ∧
    (t.total_size_before = 0 → percentage_line t = none) := by
  constructor
  · intro h
    simp only [percentage_line, if_pos h, Option.some.injEq]
    ring
  · intro h
    simp [percentage_line, h]

/-- C8 witness: totals of 100 bytes before, 40 saved show a percentage;
zero before-size omits the line. -/
theorem percentage_line_spec_witness :
    percentage_line ⟨1, 0, 100, 60, 40⟩ =
      some (100 * (((40 : Int) : Rat)) / (((100 : Int) : Rat))) ∧
    percentage_line ⟨0, 1, 0, 0, 0⟩ = none :=
  ⟨(percentage_line_spec ⟨1, 0, 100, 60, 40⟩).1 (by decide),
   (percentage_line_spec ⟨0, 1, 0, 0, 0⟩).2 rfl⟩

/-- C9 counterexample: at the parent-path prompt a malformed (empty) answer
does NOT cause a re-prompt: with a valid path waiting on the next input
line, the run still ends (returns none) instead of consuming that line and
continuing with "/projects". -/
theorem parent_path_no_reprompt_counterexample :
    acquire_parent_folder ["", "/projects"] = none ∧
    acquire_parent_folder ["", "/projects"] ≠ some ("/projects", []) := by
  constructor
  · decide
  · decide

/-- C9 (amended): the mode-choice prompt re-prompts on malformed input
until "1" or "2" is entered; the parent-path prompt does not re-prompt - an
answer that strips to empty ends the run at once, any other answer is
accepted as the path; the final confirmation reads exactly one line and
treats it as a yes/no verdict without re-prompting. -/
theorem prompt_reprompt_amended :
    (∀ (s : String) (rest : List String), py_strip s ≠ "1" → py_strip s ≠ "2" →
        ask_fvm_preference (s :: rest) = ask_fvm_preference rest) ∧
    (∀ (s : String) (rest : List String), py_strip s = "1" →
        ask_fvm_preference (s :: rest) = some (true, rest)) ∧
    (∀ (s : String) (rest : List String), py_strip s = "2" →
        ask_fvm_preference (s :: rest) = some (false, rest)) ∧
    (∀ (s : String) (rest : List String), py_strip s = "" →
        acquire_parent_folder (s :: rest) = none) ∧
    (∀ (s : String) (rest : List String), py_strip s ≠ "" →
        acquire_parent_folder (s :: rest) = some (py_strip s, rest)) ∧
    (∀ (s : String) (rest : List String),
        confirm_step (s :: rest) = some (confirm_gate s, rest)) := by
  refine ⟨?_, ?_, ?_, ?_, ?_, ?_⟩
  · intro s rest h1 h2
    simp [ask_fvm_preference, h1, h2]
  · intro s rest h
    simp [ask_fvm_preference, h]
  · intro s rest h
    simp [ask_fvm_preference, h]
  · intro s rest h
    simp [acquire_parent_folder, h]
  · intro s rest h
    simp [acquire_parent_folder, h]
  · intro s rest
    rfl

/-- C9 witness: a malformed mode choice is re-asked on the next line; a
nonempty path answer is accepted; a "no" confirmation consumes one line
only. -/
theorem prompt_reprompt_amended_witness :
    ask_fvm_preference ["maybe", "2"] = ask_fvm_preference ["2"] ∧
    acquire_parent_folder [" /home/me/projects "] =
      some ("/home/me/projects", []) ∧
    confirm_step ["n", "y"] = some (confirm_gate "n", ["y"]) :=
  ⟨prompt_reprompt_amended.1 "maybe" ["2"] (by decide) (by decide),
   by
    have h := prompt_reprompt_amended.2.2.2.2.1 " /home/me/projects " [] (by decide)
    rw [h]
    decide,
   prompt_reprompt_amended.2.2.2.2.2 "n" ["y"]⟩
